import Mathlib

/-!
# Verification of the uni-sync-curve fan controller

A shallow embedding of the core of the `uni-sync-curve` repository:

* `src/curve.rs` — the fan-curve evaluator `calculate_fan_speed` and its
  helper `interpolate`;
* `src/hardware.rs` — the HID protocol encoder inside
  `FanController::set_fan_speed` (RGB-sync report, channel-mode report,
  speed-scaling formulas) and the control flow of `set_fan_speed` itself.

Rust `f64` values are modelled as rationals (`ℚ`): every arithmetic
operation the evaluator performs on the concrete inputs treated here is
exact in `f64`, and `ℚ` captures the exact real semantics of the
comparisons, linear interpolation, rounding and clamping.  The NaN-related
partiality of the evaluator (the `partial_cmp(..).unwrap()` in the sort
comparator) is modelled separately with an `Option ℚ` temperature type in
which `none` stands for NaN.
-/

namespace UniSync

/-- `ChannelMode` from `src/config.rs`: `Manual | PWM`. -/
inductive ChannelMode where
  | Manual
  | PWM
deriving DecidableEq, Repr

/-- `CurvePoint` from `src/config.rs`: a temperature (in Celsius, an `f64`
modelled as `ℚ`) together with a fan speed percentage (a `u8`, modelled as
`ℕ`; theorems carry the `< 256` or `≤ 100` bounds they need explicitly). -/
structure CurvePoint where
  temperature_celsius : ℚ
  fan_speed_percent : ℕ
deriving DecidableEq, Repr, Inhabited

/-- Rust's `f64::round`: round half away from zero. -/
def rustRound (q : ℚ) : ℤ :=
  if 0 ≤ q then ⌊q + 1/2⌋ else ⌈q - 1/2⌉

/-- `interpolate` from `src/curve.rs` (lines 47–55):
`speed1 as f64 + (temp_offset / temp_range) * speed_range`, then
`.round().clamp(0.0, 100.0) as u8`.  The final `as u8` conversion
truncates; after rounding and clamping the value is an integer in
`[0, 100]`, so it is `Int.toNat`. -/
def interpolate (temp1 : ℚ) (speed1 : ℕ) (temp2 : ℚ) (speed2 : ℕ)
    (current_temp : ℚ) : ℕ :=
  let temp_range := temp2 - temp1
  let speed_range := (speed2 : ℚ) - (speed1 : ℚ)
  let temp_offset := current_temp - temp1
  let interpolated_speed := (speed1 : ℚ) + (temp_offset / temp_range) * speed_range
  (min 100 (max 0 (rustRound interpolated_speed))).toNat

/-- The comparator `a.temperature_celsius.partial_cmp(&b.temperature_celsius)`
used by `sort_by` in `src/curve.rs`, on non-NaN values: sort ascending by
temperature. -/
def tempLE (a b : CurvePoint) : Bool :=
  decide (a.temperature_celsius ≤ b.temperature_celsius)

/-- Strict ascending order of two points' temperatures ("sorted ascending
by temperature" with distinct temperatures; the spec flags duplicate
temperatures as a configuration-validation concern outside the
evaluator). -/
def tempLt (a b : CurvePoint) : Prop :=
  a.temperature_celsius < b.temperature_celsius

/-- Non-decreasing order of two points' speeds ("speeds monotonic
non-decreasing in temperature order"). -/
def speedLe (a b : CurvePoint) : Prop :=
  a.fan_speed_percent ≤ b.fan_speed_percent

instance : DecidableRel tempLt := fun a b =>
  inferInstanceAs (Decidable (a.temperature_celsius < b.temperature_celsius))

instance : DecidableRel speedLe := fun a b =>
  inferInstanceAs (Decidable (a.fan_speed_percent ≤ b.fan_speed_percent))

/-- The `for i in 0..len-1` loop of `calculate_fan_speed` (lines 29–42):
scan adjacent pairs, return the interpolation on the first bracketing pair;
if no pair brackets, fall through to the final `50`. -/
def scanSegments : List CurvePoint → ℚ → ℕ
  | p1 :: p2 :: rest, temperature =>
    if p1.temperature_celsius ≤ temperature ∧
        temperature ≤ p2.temperature_celsius then
      interpolate p1.temperature_celsius p1.fan_speed_percent
        p2.temperature_celsius p2.fan_speed_percent temperature
    else
      scanSegments (p2 :: rest) temperature
  | _, _ => 50

/-- The part of `calculate_fan_speed` that runs on the sorted point list
(lines 21–44): clamp-low if `temperature <= sorted_points[0]`, clamp-high if
`temperature >= sorted_points.last()`, otherwise the bracketing-pair scan.
The `[]` case is unreachable from `calculate_fan_speed` (the sort preserves
the length, which is ≥ 2 there); it is given the fall-through value `50`. -/
def evalSorted : List CurvePoint → ℚ → ℕ
  | [], _ => 50
  | q :: qs, temperature =>
    if temperature ≤ q.temperature_celsius then
      q.fan_speed_percent
    else if (qs.getLastD q).temperature_celsius ≤ temperature then
      (qs.getLastD q).fan_speed_percent
    else
      scanSegments (q :: qs) temperature

/-- `calculate_fan_speed` from `src/curve.rs` (lines 3–45), on non-NaN
inputs: empty list → 50; single point → its speed; otherwise stably sort by
temperature and evaluate with clamping at the ends and linear interpolation
between the bracketing points.  (`headI` is `points[0]`, taken in the
branch where the list has exactly one element.) -/
def calculate_fan_speed (points : List CurvePoint) (temperature : ℚ) : ℕ :=
  if points.isEmpty then 50
  else if points.length = 1 then points.headI.fan_speed_percent
  else evalSorted (points.mergeSort tempLE) temperature

/-- The curve of the repository's own test `test_fan_curve_calculation`
and of the spec's worked example: `{30→20, 50→40, 70→70, 85→100}`. -/
def exampleCurve : List CurvePoint :=
  [⟨30, 20⟩, ⟨50, 40⟩, ⟨70, 70⟩, ⟨85, 100⟩]

/-! ## NaN-aware variant of the evaluator (`src/curve.rs`, lines 14–19)

`CurvePointF` carries an `Option ℚ` temperature, `none` standing for an
`f64` NaN.  `calculate_fan_speedF` returns `none` when the Rust code
panics: for a list of length ≥ 2 the stable merge sort behind `sort_by`
invokes the comparator at least once on every element, so the
`partial_cmp(..).unwrap()` in the comparator panics exactly when some
point's temperature is NaN.  A NaN *query* temperature does not panic:
every comparison against NaN is false, so the clamp checks and the
bracketing loop all fail and the function falls through to `50`. -/

/-- A curve point whose temperature may be NaN (`none`). -/
structure CurvePointF where
  temperature_celsius : Option ℚ
  fan_speed_percent : ℕ
deriving DecidableEq, Repr, Inhabited

/-- Forget the NaN possibility (used only after checking no NaN occurs). -/
def stripNaN (p : CurvePointF) : CurvePoint :=
  ⟨p.temperature_celsius.getD 0, p.fan_speed_percent⟩

/-- `calculate_fan_speed` with panic accounting: `none` is a panic of the
`unwrap` in the sort comparator, `some n` is a normal return of `n`. -/
def calculate_fan_speedF (points : List CurvePointF) (temperature : Option ℚ) :
    Option ℕ :=
  if points.isEmpty then some 50
  else if points.length = 1 then some points.headI.fan_speed_percent
  else if points.any (fun p => p.temperature_celsius.isNone) then
    none
  else
    match temperature with
    | none => some 50
    | some t => some (calculate_fan_speed (points.map stripNaN) t)

/-! ## Protocol encoder (`src/hardware.rs`, `FanController::set_fan_speed`)

Reports are lists of byte values (`ℕ`, each < 256 where the claims need
it).  The product-id `match`es of the source are embedded arm by arm, in
source order, including the `_ =>` default arm. -/

/-- The opcode byte written in position 2 of the RGB-sync report, keyed by
product id (`src/hardware.rs` lines 69–76). -/
def sync_opcode (product_id : ℕ) : ℕ :=
  if product_id = 0xa100 ∨ product_id = 0x7750 then 48      -- SL
  else if product_id = 0xa101 then 65                        -- AL
  else if product_id = 0xa102 then 97                        -- SLI
  else if product_id = 0xa103 ∨ product_id = 0xa105 then 97  -- SLv2
  else if product_id = 0xa104 then 97                        -- ALv2
  else 48                                                    -- default: SL

/-- The 7-byte RGB-sync report (`src/hardware.rs` lines 68–76); the source
builds it inline in each match arm as `[224, 16, <opcode>, sync_byte, 0, 0, 0]`. -/
def sync_report (product_id : ℕ) (sync_byte : ℕ) : List ℕ :=
  if product_id = 0xa100 ∨ product_id = 0x7750 then [224, 16, 48, sync_byte, 0, 0, 0]
  else if product_id = 0xa101 then [224, 16, 65, sync_byte, 0, 0, 0]
  else if product_id = 0xa102 then [224, 16, 97, sync_byte, 0, 0, 0]
  else if product_id = 0xa103 ∨ product_id = 0xa105 then [224, 16, 97, sync_byte, 0, 0, 0]
  else if product_id = 0xa104 then [224, 16, 97, sync_byte, 0, 0, 0]
  else [224, 16, 48, sync_byte, 0, 0, 0]

/-- `channel_byte` (`src/hardware.rs` lines 82–85): a `u8` starting as
`0x10 << channel`, OR-ed with `0x1 << channel` when the mode is PWM.  The
`% 256` models the `u8` width (bits shifted past bit 7 are discarded);
the source value is a `u8`, and a shift amount ≥ 8 would be a Rust
overflow panic, so the embedding is used with `channel < 8`. -/
def channel_byte (channel : ℕ) (mode : ChannelMode) : ℕ :=
  let b := (0x10 <<< channel) % 256
  if mode = ChannelMode.PWM then b ||| ((0x1 <<< channel) % 256) else b

/-- The channel-opcode byte of the channel-mode report (`src/hardware.rs`
lines 87–94). -/
def channel_opcode (product_id : ℕ) : ℕ :=
  if product_id = 0xa100 ∨ product_id = 0x7750 then 49      -- SL
  else if product_id = 0xa101 then 66                        -- AL
  else if product_id = 0xa102 then 98                        -- SLI
  else if product_id = 0xa103 ∨ product_id = 0xa105 then 98  -- SLv2
  else if product_id = 0xa104 then 98                        -- ALv2
  else 49                                                    -- default: SL

/-- The 4-byte channel-mode report (`src/hardware.rs` lines 87–94):
`[224, 16, <channel_opcode>, channel_byte]`. -/
def channel_report (product_id : ℕ) (channel : ℕ) (mode : ChannelMode) : List ℕ :=
  [224, 16, channel_opcode product_id, channel_byte channel mode]

/-- `(speed_percent as f64).clamp(0.0, 100.0)` (`src/hardware.rs` line
101): a `u8` is never negative, so the clamp is `min · 100`. -/
def clamped_speed (speed_percent : ℕ) : ℕ := min speed_percent 100

/-- `((800.0 + (11.0 * speed)) as usize / 19)` (`src/hardware.rs` line
103).  `800 + 11·speed` is an exact integer in `f64`; `as usize`
truncates (floor on the nonnegative value), then integer-divides by 19. -/
def speed_800_1900 (speed : ℕ) : ℕ := (⌊(800 : ℚ) + 11 * speed⌋).toNat / 19

/-- `((250.0 + (17.5 * speed)) as usize / 20)` (`src/hardware.rs` line
104).  `250 + 17.5·speed` is exactly representable in `f64` (a multiple of
1/2 below 2^11); `as usize` truncates it, then integer-divides by 20. -/
def speed_250_2000 (speed : ℕ) : ℕ := (⌊(250 : ℚ) + 17.5 * speed⌋).toNat / 20

/-- `((200.0 + (19.0 * speed)) as usize / 21)` (`src/hardware.rs` line
105). -/
def speed_200_2100 (speed : ℕ) : ℕ := (⌊(200 : ℚ) + 19 * speed⌋).toNat / 21

/-- The scaled-speed byte each product id puts in position 3 of the speed
report (`src/hardware.rs` lines 107–118). -/
def speed_byte (product_id : ℕ) (speed : ℕ) : ℕ :=
  if product_id = 0xa100 ∨ product_id = 0x7750 then speed_800_1900 speed
  else if product_id = 0xa101 then speed_800_1900 speed
  else if product_id = 0xa102 then speed_200_2100 speed
  else if product_id = 0xa103 ∨ product_id = 0xa105 then speed_250_2000 speed
  else if product_id = 0xa104 then speed_250_2000 speed
  else speed_800_1900 speed

/-- The 4-byte speed report (`src/hardware.rs` lines 107–118):
`[224, (channel + 32).try_into().unwrap(), 0, <scaled speed>]`, with the
input percentage clamped before scaling.  The `try_into` to `u8` fails —
and the `unwrap` panics, modelled as `none` — exactly when `channel + 32`
exceeds 255, i.e. for `channel ≥ 224`. -/
def speed_report (product_id : ℕ) (channel : ℕ) (speed_percent : ℕ) :
    Option (List ℕ) :=
  if channel + 32 ≤ 255 then
    some [224, channel + 32, 0, speed_byte product_id (clamped_speed speed_percent)]
  else
    none

/-! ## `set_fan_speed` control flow (`src/hardware.rs` lines 45–125) -/

/-- `DeviceId` from `src/config.rs`: `(vendor_id, product_id, serial)`. -/
structure DeviceId where
  vendor_id : ℕ
  product_id : ℕ
  serial : String
deriving DecidableEq, Repr

/-- A concrete serial-number string, used for concrete device identities
(the value the repository's own test uses). -/
def testSerial : String :=
  "TEST123"

/-- The error reported when the device id is missing from the registry
(`src/hardware.rs` line 55; the formatted id is elided). -/
def device_not_available_msg : String :=
  "Device with given device id not available"

/-- Outcome of one `set_fan_speed` call: a returned `Result`, a process
exit (`std::process::exit(0)` when `open_path` fails, line 61), or a
panic (`unwrap` on a failed `try_into`, or a debug-mode shift-overflow
check). -/
inductive CallOutcome where
  | ret (r : Except String Unit)
  | exits (code : ℕ)
  | panics
deriving Repr

/-- `FanController::set_fan_speed` (`src/hardware.rs` lines 45–125).

The registry (`device_configs`) is modelled by its key set, `openOk`
models whether `open_path` succeeds, and `writeResult` is an oracle giving
each HID report write's success — the source discards every write result
(`let _ = match … hid.write(…)`), which the `let _wᵢ` bindings mirror.
The sleeps between writes have no observable effect on the result and are
not modelled.  `sync_rgb` is hardcoded `false` in the source, so the sync
byte written is 0.

Two panic paths of the source are modelled:
* `0x10 << channel` on the `u8` `channel_byte` (line 82) is an arithmetic
  overflow for `channel ≥ 8`: with debug assertions (`debug_asserts`) it
  panics; in release the shift amount is masked to the bit width, which
  the `channel % 8` in the `channel_report` call models (for
  `channel < 8` it is the identity);
* `(channel + 32).try_into::<u8>().unwrap()` in every Manual-mode speed
  write (lines 109–117) panics in both build modes when
  `channel + 32 > 255` (the `none` case of `speed_report`). -/
def set_fan_speed (debug_asserts : Bool) (registry : List DeviceId)
    (openOk : Bool) (writeResult : List ℕ → Bool) (device_id : DeviceId)
    (channel : ℕ) (mode : ChannelMode) (speed_percent : ℕ) : CallOutcome :=
  if device_id ∈ registry then
    if openOk then
      let pid := device_id.product_id
      let _w1 := writeResult (sync_report pid 0)
      if debug_asserts ∧ 8 ≤ channel then
        CallOutcome.panics
      else
        let _w2 := writeResult (channel_report pid (channel % 8) mode)
        if mode = ChannelMode.Manual then
          match speed_report pid channel speed_percent with
          | none => CallOutcome.panics
          | some r =>
            let _w3 := writeResult r
            CallOutcome.ret (Except.ok ())
        else
          CallOutcome.ret (Except.ok ())
    else
      CallOutcome.exits 0
  else
    CallOutcome.ret (Except.error device_not_available_msg)

/-! ## Spec-side definitions (for refinement-style claims)

These follow the wording of the specification, to be compared against the
embedded code. -/

/-- Spec formula for family A: `floor((800 + 11·speed) / 19)`. -/
def specScaleA (speed : ℕ) : ℤ := ⌊((800 : ℚ) + 11 * speed) / 19⌋

/-- Spec formula for family B: `floor((250 + 17.5·speed) / 20)`. -/
def specScaleB (speed : ℕ) : ℤ := ⌊((250 : ℚ) + 17.5 * speed) / 20⌋

/-- Spec formula for family C: `floor((200 + 19·speed) / 21)`. -/
def specScaleC (speed : ℕ) : ℤ := ⌊((200 : ℚ) + 19 * speed) / 21⌋

/-! ## Theorems -/

/-- On an already-sorted list the stable sort is the identity, so
`calculate_fan_speed` reduces to `evalSorted` on the list itself. -/
theorem calculate_fan_speed_sorted {points : List CurvePoint} (t : ℚ)
    (hs : points.Pairwise (tempLE · ·)) (h2 : 2 ≤ points.length) :
    calculate_fan_speed points t = evalSorted points t := by
  rw [calculate_fan_speed, List.mergeSort_of_sorted hs]
  rcases points with _ | ⟨p, _ | ⟨q, l⟩⟩ <;> simp_all [List.isEmpty]

/-- C1: for the curve `{30→20, 50→40, 70→70, 85→100}`, `calculate_fan_speed`
returns 20 at 25 °C, 20 at 30, 30 at 40, 40 at 50, 55 at 60, 70 at 70 and
100 at 90 — the repository's own test values and the spec's worked
example. -/
theorem c1_example_curve_values :
    calculate_fan_speed exampleCurve 25 = 20 ∧
    calculate_fan_speed exampleCurve 30 = 20 ∧
    calculate_fan_speed exampleCurve 40 = 30 ∧
    calculate_fan_speed exampleCurve 50 = 40 ∧
    calculate_fan_speed exampleCurve 60 = 55 ∧
    calculate_fan_speed exampleCurve 70 = 70 ∧
    calculate_fan_speed exampleCurve 90 = 100 := by
  have hs : exampleCurve.Pairwise (tempLE · ·) := by with_unfolding_all decide
  refine ⟨?_, ?_, ?_, ?_, ?_, ?_, ?_⟩ <;>
    · rw [calculate_fan_speed_sorted _ hs (by decide)]
      with_unfolding_all decide

/-- The sort comparator is transitive. -/
theorem tempLE_trans : ∀ (a b c : CurvePoint), tempLE a b → tempLE b c → tempLE a c := by
  intro a b c hab hbc
  simp only [tempLE, decide_eq_true_eq] at hab hbc ⊢
  exact le_trans hab hbc

/-- The sort comparator is total. -/
theorem tempLE_total : ∀ (a b : CurvePoint), tempLE a b || tempLE b a := by
  intro a b
  simp only [tempLE, Bool.or_eq_true, decide_eq_true_eq]
  exact le_total _ _

/-- In a list that is pairwise related by a reflexive relation, every
element is related to the last element. -/
theorem rel_getLastD_of_pairwise {R : CurvePoint → CurvePoint → Prop}
    (hrefl : ∀ x : CurvePoint, R x x) (q : CurvePoint) (qs : List CurvePoint)
    (h : (q :: qs).Pairwise R) :
    ∀ x ∈ q :: qs, R x (qs.getLastD q) := by
  induction qs generalizing q with
  | nil =>
    intro x hx
    rw [List.mem_singleton.mp hx]
    exact hrefl _
  | cons q' qs' ih =>
    intro x hx
    obtain ⟨hhead, htail⟩ := List.pairwise_cons.mp h
    rw [List.getLastD_cons]
    rcases List.mem_cons.mp hx with rfl | hx'
    · exact hhead _ (List.getLastD_mem_cons qs' q')
    · exact ih q' htail x hx'

/-- In a list sorted by temperature, every element's temperature is at
most the temperature of the last element. -/
theorem temp_le_getLastD (q : CurvePoint) (qs : List CurvePoint)
    (h : (q :: qs).Pairwise
      (fun a b => a.temperature_celsius ≤ b.temperature_celsius)) :
    ∀ x ∈ q :: qs,
      x.temperature_celsius ≤ (qs.getLastD q).temperature_celsius :=
  rel_getLastD_of_pairwise
    (R := fun a b => a.temperature_celsius ≤ b.temperature_celsius)
    (fun _ => le_refl _) q qs h

/-- C2: for every curve with at least two points (temperatures in `ℚ`, so
pairwise comparable), a query at or below every point temperature returns
the speed of a minimum-temperature point, and a query at or above every
point temperature returns the speed of a maximum-temperature point. -/
theorem c2_clamp_at_extremes (points : List CurvePoint) (t : ℚ)
    (h2 : 2 ≤ points.length) :
    ((∀ p ∈ points, t ≤ p.temperature_celsius) →
      ∃ p ∈ points,
        (∀ q ∈ points, p.temperature_celsius ≤ q.temperature_celsius) ∧
        calculate_fan_speed points t = p.fan_speed_percent) ∧
    ((∀ p ∈ points, p.temperature_celsius ≤ t) →
      ∃ p ∈ points,
        (∀ q ∈ points, q.temperature_celsius ≤ p.temperature_celsius) ∧
        calculate_fan_speed points t = p.fan_speed_percent) := by
  have hperm : (points.mergeSort tempLE).Perm points := List.mergeSort_perm points tempLE
  have hsort : (points.mergeSort tempLE).Pairwise (tempLE · ·) :=
    List.sorted_mergeSort tempLE_trans tempLE_total points
  have hne : ¬points.isEmpty = true := by
    rw [List.isEmpty_iff]
    intro h
    rw [h] at h2
    simp at h2
  have h1 : points.length ≠ 1 := by omega
  have heval : calculate_fan_speed points t =
      evalSorted (points.mergeSort tempLE) t := by
    rw [calculate_fan_speed, if_neg hne, if_neg h1]
  cases hq : points.mergeSort tempLE with
  | nil =>
    have := hperm.length_eq
    rw [hq] at this
    simp at this
    omega
  | cons q qs =>
    rw [hq] at hperm hsort
    have htemp : (q :: qs).Pairwise
        (fun a b => a.temperature_celsius ≤ b.temperature_celsius) :=
      hsort.imp (fun h => by simpa [tempLE] using h)
    have hqmem : q ∈ points := hperm.mem_iff.mp (by simp)
    constructor
    · intro hmin
      refine ⟨q, hqmem, ?_, ?_⟩
      · intro y hy
        have hy' : y ∈ q :: qs := hperm.mem_iff.mpr hy
        rcases List.mem_cons.mp hy' with rfl | hy''
        · exact le_refl _
        · exact (List.pairwise_cons.mp htemp).1 y hy''
      · rw [heval, hq, evalSorted, if_pos (hmin q hqmem)]
    · intro hmax
      by_cases hc : t ≤ q.temperature_celsius
      · refine ⟨q, hqmem, ?_, ?_⟩
        · intro y hy
          exact le_trans (hmax y hy) hc
        · rw [heval, hq, evalSorted, if_pos hc]
      · have hlast_l : qs.getLastD q ∈ q :: qs := List.getLastD_mem_cons qs q
        have hlastmem : qs.getLastD q ∈ points := hperm.mem_iff.mp hlast_l
        have hle : (qs.getLastD q).temperature_celsius ≤ t := hmax _ hlastmem
        refine ⟨qs.getLastD q, hlastmem, ?_, ?_⟩
        · intro y hy
          exact temp_le_getLastD q qs htemp y (hperm.mem_iff.mpr hy)
        · rw [heval, hq, evalSorted, if_neg hc, if_pos hle]

/-- C2 witness: on the example curve, a query below 30 °C hits a
minimum-temperature point and a query above 85 °C hits a
maximum-temperature point. -/
theorem c2_witness :
    (∃ p ∈ exampleCurve,
      (∀ q ∈ exampleCurve, p.temperature_celsius ≤ q.temperature_celsius) ∧
      calculate_fan_speed exampleCurve 10 = p.fan_speed_percent) ∧
    (∃ p ∈ exampleCurve,
      (∀ q ∈ exampleCurve, q.temperature_celsius ≤ p.temperature_celsius) ∧
      calculate_fan_speed exampleCurve 95 = p.fan_speed_percent) :=
  ⟨(c2_clamp_at_extremes exampleCurve 10 (by decide)).1
      (by intro p hp; fin_cases hp <;> norm_num),
   (c2_clamp_at_extremes exampleCurve 95 (by decide)).2
      (by intro p hp; fin_cases hp <;> norm_num)⟩

/-- C3: the empty curve evaluates to the fail-safe 50 at every temperature,
and a one-point curve evaluates to that point's speed at every
temperature. -/
theorem c3_empty_and_singleton :
    (∀ t : ℚ, calculate_fan_speed [] t = 50) ∧
    (∀ (p : CurvePoint) (t : ℚ), calculate_fan_speed [p] t = p.fan_speed_percent) := by
  constructor
  · intro t
    simp [calculate_fan_speed]
  · intro p t
    simp [calculate_fan_speed, List.headI]

/-- `interpolate` always lands in `[0, 100]`: the source rounds and then
clamps to `[0.0, 100.0]`. -/
theorem interpolate_le_100 (t1 : ℚ) (s1 : ℕ) (t2 : ℚ) (s2 : ℕ) (t : ℚ) :
    interpolate t1 s1 t2 s2 t ≤ 100 := by
  have h : interpolate t1 s1 t2 s2 t =
      (min 100 (max 0 (rustRound ((s1 : ℚ) + (t - t1) / (t2 - t1) * ((s2 : ℚ) - (s1 : ℚ)))))).toNat :=
    rfl
  rw [h]
  generalize rustRound _ = r
  omega

/-- The bracketing-pair scan always lands in `[0, 100]`: every exit is
either an `interpolate` value or the fall-through 50. -/
theorem scanSegments_le_100 (l : List CurvePoint) (t : ℚ) :
    scanSegments l t ≤ 100 := by
  induction l with
  | nil => simp [scanSegments]
  | cons p rest ih =>
    cases rest with
    | nil => simp [scanSegments]
    | cons p2 rest2 =>
      rw [scanSegments]
      split
      · exact interpolate_le_100 _ _ _ _ _
      · exact ih

/-- C4 counterexample: the claim quantifies over every `u8` speed value,
but a one-point curve with speed 255 evaluates to 255, outside `[0, 100]`. -/
theorem c4_counterexample :
    ¬ calculate_fan_speed [⟨0, 255⟩] 0 ≤ 100 := by
  decide

/-- C4 amended: if every point's `fan_speed_percent` is at most 100 (the
`u8 ∈ [0,100]` invariant of the data model), then `calculate_fan_speed`
always returns a value in `[0, 100]` (the lower bound is definitional for
`ℕ`). -/
theorem c4_amended_output_bounded (points : List CurvePoint) (t : ℚ)
    (hb : ∀ p ∈ points, p.fan_speed_percent ≤ 100) :
    calculate_fan_speed points t ≤ 100 := by
  rcases points with _ | ⟨p, _ | ⟨p2, rest⟩⟩
  · simp [calculate_fan_speed]
  · simpa [calculate_fan_speed, List.headI] using hb p (by simp)
  · rw [calculate_fan_speed, if_neg (by simp), if_neg (by simp)]
    have hmem : ∀ q ∈ (p :: p2 :: rest).mergeSort tempLE, q.fan_speed_percent ≤ 100 := by
      intro q hq
      exact hb q ((List.mem_mergeSort).mp hq)
    cases hll : (p :: p2 :: rest).mergeSort tempLE with
    | nil => simp [evalSorted]
    | cons q qs =>
      rw [evalSorted]
      split
      · exact hmem q (by simp [hll])
      · split
        · exact hmem _ (by rw [hll]; exact List.getLastD_mem_cons qs q)
        · exact scanSegments_le_100 _ _

/-- C4 amended, witness: the bound holds on the example curve. -/
theorem c4_amended_witness :
    calculate_fan_speed exampleCurve 60 ≤ 100 :=
  c4_amended_output_bounded exampleCurve 60 (by decide)

/-- For every clamped speed `s ≤ 100`, each scaling function agrees with
the spec's floor formula and fits in a byte. -/
theorem scale_eq_spec_bounded : ∀ s, s < 101 →
    ((speed_800_1900 s : ℤ) = specScaleA s ∧
     (speed_250_2000 s : ℤ) = specScaleB s ∧
     (speed_200_2100 s : ℤ) = specScaleC s) ∧
    (speed_800_1900 s < 256 ∧ speed_250_2000 s < 256 ∧ speed_200_2100 s < 256) := by
  with_unfolding_all decide

/-- C6: for every `u8` input speed percentage, after clamping to `[0,100]`
the three family scaling bytes equal the documented floor formulas
(family A `floor((800+11·s)/19)`, family B `floor((250+17.5·s)/20)`,
family C `floor((200+19·s)/21)`), each result fits in a byte, and family A
maps speed 0 to 42 and speed 100 to 100. -/
theorem c6_speed_scaling (speed_percent : ℕ) (_hp : speed_percent ≤ 255) :
    ((speed_800_1900 (clamped_speed speed_percent) : ℤ) =
        specScaleA (clamped_speed speed_percent) ∧
     (speed_250_2000 (clamped_speed speed_percent) : ℤ) =
        specScaleB (clamped_speed speed_percent) ∧
     (speed_200_2100 (clamped_speed speed_percent) : ℤ) =
        specScaleC (clamped_speed speed_percent)) ∧
    (speed_800_1900 (clamped_speed speed_percent) < 256 ∧
     speed_250_2000 (clamped_speed speed_percent) < 256 ∧
     speed_200_2100 (clamped_speed speed_percent) < 256) ∧
    speed_800_1900 (clamped_speed 0) = 42 ∧
    speed_800_1900 (clamped_speed 100) = 100 := by
  refine ⟨(scale_eq_spec_bounded _ ?_).1, (scale_eq_spec_bounded _ ?_).2, ?_, ?_⟩
  · have := min_le_right speed_percent 100
    simp only [clamped_speed]
    omega
  · have := min_le_right speed_percent 100
    simp only [clamped_speed]
    omega
  · with_unfolding_all decide
  · with_unfolding_all decide

/-- C6 witness: the scaling contract at the concrete input 255 (clamped to
100). -/
theorem c6_witness :
    (speed_800_1900 (clamped_speed 255) : ℤ) = specScaleA (clamped_speed 255) ∧
    speed_800_1900 (clamped_speed 255) < 256 :=
  ⟨(c6_speed_scaling 255 (by decide)).1.1, (c6_speed_scaling 255 (by decide)).2.1.1⟩

/-- C7 counterexample: the claim asserts bit `4 + channel` is set for
every channel index, but for channel 4 the byte `0x10 << 4` overflows the
`u8` and becomes 0 — no bit is set at all. -/
theorem c7_counterexample :
    channel_byte 4 ChannelMode.Manual = 0 ∧
    Nat.testBit (channel_byte 4 ChannelMode.Manual) (4 + 4) = false := by
  decide

/-- C7 amended: for every channel index below 4 (so that `4 + channel`
still lies inside the byte) the channel configuration byte has bit
`4 + channel` set unconditionally, bit `channel` set exactly when the mode
is PWM, and no other bit set; in particular for channel 2 in PWM mode the
byte is `0b01000100` = 68. -/
theorem c7_amended_channel_byte (channel : ℕ) (hch : channel < 4)
    (mode : ChannelMode) :
    (∀ i : ℕ, Nat.testBit (channel_byte channel mode) i = true ↔
      (i = 4 + channel ∨ (mode = ChannelMode.PWM ∧ i = channel))) ∧
    channel_byte 2 ChannelMode.PWM = 68 := by
  constructor
  · intro i
    by_cases hi : i < 8
    · interval_cases channel <;> cases mode <;> interval_cases i <;> decide
    · have h256 : channel_byte channel mode < 256 := by
        interval_cases channel <;> cases mode <;> decide
      have hpow : channel_byte channel mode < 2 ^ i :=
        lt_of_lt_of_le h256 (by
          calc (256 : ℕ) = 2 ^ 8 := by norm_num
          _ ≤ 2 ^ i := Nat.pow_le_pow_right (by norm_num) (by omega))
      rw [Nat.testBit_lt_two_pow hpow]
      simp only [Bool.false_eq_true, false_iff]
      rintro (h | ⟨_, h⟩) <;> omega
  · decide

/-- C7 amended, witness: channel 2 in PWM mode has bit 6 set. -/
theorem c7_amended_witness :
    Nat.testBit (channel_byte 2 ChannelMode.PWM) 6 = true :=
  ((c7_amended_channel_byte 2 (by decide) ChannelMode.PWM).1 6).mpr (Or.inl rfl)

/-- C8 counterexample: product ids `0xa102` (SLI) and `0xa103` (SLv2) are
in different families — their speed-scaling contracts differ already at
speed 0 (9 versus 12) — yet they use the same RGB-sync opcode byte 97, so
the known families do not all have pairwise distinct opcodes. -/
theorem c8_counterexample :
    sync_opcode 0xa102 = sync_opcode 0xa103 ∧
    speed_byte 0xa102 0 ≠ speed_byte 0xa103 0 := by
  constructor
  · decide
  · with_unfolding_all decide

/-- C8 amended: the RGB-sync toggle write is the 7-byte report
`[0xE0, 0x10, family_opcode, sync_flag, 0, 0, 0]` for every product id;
the known product ids fall into four families —
`{0x7750, 0xa100}` (opcode 48), `{0xa101}` (65), `{0xa102}` (97) and
`{0xa103, 0xa104, 0xa105}` (97) — and the opcodes are not all distinct:
the `0xa102` family shares opcode 97 with the `0xa103/0xa104/0xa105`
family although their speed-scaling contracts differ. -/
theorem c8_amended_sync_report :
    (∀ (product_id sync_byte : ℕ),
      sync_report product_id sync_byte =
        [0xE0, 0x10, sync_opcode product_id, sync_byte, 0, 0, 0]) ∧
    sync_opcode 0x7750 = 48 ∧ sync_opcode 0xa100 = 48 ∧
    sync_opcode 0xa101 = 65 ∧ sync_opcode 0xa102 = 97 ∧
    sync_opcode 0xa103 = 97 ∧ sync_opcode 0xa104 = 97 ∧
    sync_opcode 0xa105 = 97 ∧
    (∀ s : ℕ, speed_byte 0x7750 s = speed_byte 0xa100 s ∧
              speed_byte 0xa103 s = speed_byte 0xa104 s ∧
              speed_byte 0xa104 s = speed_byte 0xa105 s) ∧
    speed_byte 0xa102 0 ≠ speed_byte 0xa103 0 := by
  refine ⟨?_, by decide, by decide, by decide, by decide, by decide, by decide,
    by decide, ?_, ?_⟩
  · intro pid sb
    unfold sync_report sync_opcode
    split_ifs <;> rfl
  · intro s
    refine ⟨?_, ?_, ?_⟩ <;> simp [speed_byte]
  · with_unfolding_all decide

/-- C9 counterexample: with the device registered and opened (release
build, so no debug shift check), channel 224 in Manual mode makes the
speed write's `(channel + 32).try_into::<u8>().unwrap()` panic — the call
does not return success, contradicting the claim's "the returned result
… is success" for this resolved-and-opened input. -/
theorem c9_counterexample :
    set_fan_speed false [⟨0x0cf2, 0x7750, testSerial⟩] true (fun _ => true)
      ⟨0x0cf2, 0x7750, testSerial⟩ 224 ChannelMode.Manual 50 =
      CallOutcome.panics ∧
    set_fan_speed false [⟨0x0cf2, 0x7750, testSerial⟩] true (fun _ => true)
      ⟨0x0cf2, 0x7750, testSerial⟩ 224 ChannelMode.Manual 50 ≠
      CallOutcome.ret (Except.ok ()) := by
  have h : set_fan_speed false [⟨0x0cf2, 0x7750, testSerial⟩] true (fun _ => true)
      ⟨0x0cf2, 0x7750, testSerial⟩ 224 ChannelMode.Manual 50 =
      CallOutcome.panics := by
    rw [set_fan_speed, if_pos (by simp), if_pos rfl,
      if_neg (by simp), if_pos rfl]
    rw [speed_report, if_neg (by omega)]
  exact ⟨h, by rw [h]; exact fun hc => CallOutcome.noConfusion hc⟩

/-- C9 amended: `set_fan_speed` returns a failure exactly when the device
id is not in the registry (a panic or a process exit is not a returned
failure); once the id resolves, the device opens, and the channel index
avoids the two `u8`-conversion panics (`channel + 32 ≤ 255` for the
speed write's `try_into().unwrap()`, and `channel < 8` for the
`channel_byte` shift when debug assertions are on), the individual HID
write outcomes are all discarded and the result is success regardless of
them. -/
theorem c9_amended_result_independent_of_writes :
    (∀ (debug_asserts : Bool) (registry : List DeviceId) (openOk : Bool)
        (writeResult : List ℕ → Bool) (d : DeviceId) (channel : ℕ)
        (mode : ChannelMode) (speed : ℕ),
      (∃ e, set_fan_speed debug_asserts registry openOk writeResult
          d channel mode speed = CallOutcome.ret (Except.error e)) ↔
        d ∉ registry) ∧
    (∀ (debug_asserts : Bool) (registry : List DeviceId)
        (writeResult : List ℕ → Bool) (d : DeviceId) (channel : ℕ)
        (mode : ChannelMode) (speed : ℕ),
      d ∈ registry → channel + 32 ≤ 255 →
      (debug_asserts = true → channel < 8) →
      set_fan_speed debug_asserts registry true writeResult
          d channel mode speed = CallOutcome.ret (Except.ok ())) := by
  constructor
  · intro dbg registry openOk writeResult d channel mode speed
    by_cases hd : d ∈ registry
    · simp only [hd, not_true, iff_false]
      rintro ⟨e, he⟩
      rw [set_fan_speed, if_pos hd] at he
      cases openOk
      · simp at he
      · rw [if_pos rfl] at he
        dsimp only at he
        split at he
        · exact CallOutcome.noConfusion he
        · split at he
          · split at he
            · exact CallOutcome.noConfusion he
            · simp at he
          · simp at he
    · simp only [hd, not_false_iff, iff_true]
      exact ⟨device_not_available_msg, by rw [set_fan_speed, if_neg hd]⟩
  · intro dbg registry writeResult d channel mode speed hd hch hdbg
    rw [set_fan_speed, if_pos hd, if_pos rfl,
      if_neg (by rintro ⟨h1, h2⟩; exact absurd (hdbg h1) (by omega))]
    cases mode
    · rw [if_pos rfl, speed_report, if_pos hch]
    · rw [if_neg (by simp)]

/-- C9 amended, witness: with the device present, debug assertions on, a
valid channel, and every write failing, the call still returns success. -/
theorem c9_witness :
    set_fan_speed true [⟨0x0cf2, 0x7750, testSerial⟩] true (fun _ => false)
      ⟨0x0cf2, 0x7750, testSerial⟩ 0 ChannelMode.Manual 50 =
      CallOutcome.ret (Except.ok ()) :=
  c9_amended_result_independent_of_writes.2 true _ _ _ 0 _ _
    (by simp) (by omega) (fun _ => by omega)

/-- C10: `calculate_fan_speed` is not total — with two or more points, a
NaN point temperature makes the sort comparator's
`partial_cmp(..).unwrap()` panic (a concrete panicking input is shown, and
every list of length ≥ 2 containing a NaN temperature panics) — and it is
total under the precondition that every point temperature is non-NaN. -/
theorem c10_nan_partiality :
    calculate_fan_speedF [⟨some 30, 20⟩, ⟨none, 40⟩] (some 25) = none ∧
    (∀ (points : List CurvePointF) (t : Option ℚ),
      2 ≤ points.length → (∃ p ∈ points, p.temperature_celsius = none) →
      calculate_fan_speedF points t = none) ∧
    (∀ (points : List CurvePointF) (t : Option ℚ),
      (∀ p ∈ points, (p.temperature_celsius).isSome = true) →
      (calculate_fan_speedF points t).isSome = true) := by
  refine ⟨by decide, ?_, ?_⟩
  · rintro points t h2 ⟨p, hp, hnone⟩
    have h0 : ¬points.isEmpty = true := by
      rw [List.isEmpty_iff]
      intro h
      rw [h] at h2
      simp at h2
    have h1 : points.length ≠ 1 := by omega
    have h3 : points.any (fun p => p.temperature_celsius.isNone) = true := by
      rw [List.any_eq_true]
      exact ⟨p, hp, by rw [hnone]; rfl⟩
    simp [calculate_fan_speedF, h0, h1, h3]
  · intro points t hall
    by_cases h0 : points.isEmpty = true
    · simp [calculate_fan_speedF, h0]
    · by_cases h1 : points.length = 1
      · simp [calculate_fan_speedF, h0, h1]
      · have hany : points.any (fun p => p.temperature_celsius.isNone) = false := by
          rw [List.any_eq_false]
          intro p hp
          simpa using Option.isSome_iff_ne_none.mp (hall p hp)
        cases t <;> simp [calculate_fan_speedF, h0, h1, hany]

/-- C10 witness: a NaN-free two-point list evaluates without panicking,
and the concrete NaN list panics via the general statement. -/
theorem c10_witness :
    calculate_fan_speedF [⟨some 30, 20⟩, ⟨none, 40⟩] (some 50) = none ∧
    (calculate_fan_speedF [⟨some 30, 20⟩, ⟨some 50, 40⟩] (some 25)).isSome = true :=
  ⟨c10_nan_partiality.2.1 _ _ (by decide) ⟨⟨none, 40⟩, by simp, rfl⟩,
   c10_nan_partiality.2.2 _ _ (by decide)⟩

/-! ### Interpolation lemmas for the monotonicity claim (C5) -/

/-- `rustRound` is monotone on nonnegative inputs (both sides take the
`floor (· + 1/2)` branch). -/
theorem rustRound_mono_of_nonneg {x y : ℚ} (hx : 0 ≤ x) (hxy : x ≤ y) :
    rustRound x ≤ rustRound y := by
  rw [rustRound, rustRound, if_pos hx, if_pos (le_trans hx hxy)]
  exact Int.floor_le_floor (by linarith)

/-- `rustRound` of a natural number is itself. -/
theorem rustRound_natCast (n : ℕ) : rustRound (n : ℚ) = n := by
  rw [rustRound, if_pos (by positivity), Int.floor_eq_iff]
  constructor
  · push_cast
    linarith
  · push_cast
    linarith

/-- Unfolding equation for `interpolate`. -/
theorem interpolate_def (t1 : ℚ) (s1 : ℕ) (t2 : ℚ) (s2 : ℕ) (t : ℚ) :
    interpolate t1 s1 t2 s2 t =
      (min 100 (max 0 (rustRound
        ((s1 : ℚ) + (t - t1) / (t2 - t1) * ((s2 : ℚ) - (s1 : ℚ)))))).toNat :=
  rfl

/-- The linear value interpolated inside a segment lies between the two
endpoint speeds (when they are in non-decreasing order). -/
theorem interp_value_bounds {Ta Tb t : ℚ} {sa sb : ℕ} (hT : Ta < Tb)
    (hs : sa ≤ sb) (h1 : Ta ≤ t) (h2 : t ≤ Tb) :
    (sa : ℚ) ≤ (sa : ℚ) + (t - Ta) / (Tb - Ta) * ((sb : ℚ) - (sa : ℚ)) ∧
    (sa : ℚ) + (t - Ta) / (Tb - Ta) * ((sb : ℚ) - (sa : ℚ)) ≤ (sb : ℚ) := by
  have hpos : (0 : ℚ) < Tb - Ta := by linarith
  have hfrac0 : 0 ≤ (t - Ta) / (Tb - Ta) := div_nonneg (by linarith) (le_of_lt hpos)
  have hfrac1 : (t - Ta) / (Tb - Ta) ≤ 1 := by
    rw [div_le_one hpos]
    linarith
  have hsba : (0 : ℚ) ≤ (sb : ℚ) - (sa : ℚ) := by
    have : (sa : ℚ) ≤ (sb : ℚ) := by exact_mod_cast hs
    linarith
  constructor
  · nlinarith
  · nlinarith

/-- Within a segment with non-decreasing speeds, `interpolate` is at least
the left endpoint's speed (which must itself be ≤ 100, since the result is
clamped there). -/
theorem interpolate_ge_left {Ta Tb t : ℚ} {sa sb : ℕ} (hT : Ta < Tb)
    (hs : sa ≤ sb) (hsa : sa ≤ 100) (h1 : Ta ≤ t) (h2 : t ≤ Tb) :
    sa ≤ interpolate Ta sa Tb sb t := by
  rw [interpolate_def]
  obtain ⟨hv1, _⟩ := interp_value_bounds hT hs h1 h2
  have hr : (sa : ℤ) ≤ rustRound ((sa : ℚ) + (t - Ta) / (Tb - Ta) * ((sb : ℚ) - (sa : ℚ))) := by
    have := rustRound_mono_of_nonneg (by positivity) hv1
    rwa [rustRound_natCast] at this
  generalize rustRound _ = r at hr
  omega

/-- Within a segment with non-decreasing speeds, `interpolate` is at most
the right endpoint's speed (which must be ≤ 100 so the clamp keeps it). -/
theorem interpolate_le_right {Ta Tb t : ℚ} {sa sb : ℕ} (hT : Ta < Tb)
    (hs : sa ≤ sb) (h1 : Ta ≤ t) (h2 : t ≤ Tb) :
    interpolate Ta sa Tb sb t ≤ sb := by
  rw [interpolate_def]
  obtain ⟨hv1, hv2⟩ := interp_value_bounds hT hs h1 h2
  have hr : rustRound ((sa : ℚ) + (t - Ta) / (Tb - Ta) * ((sb : ℚ) - (sa : ℚ))) ≤ (sb : ℤ) := by
    have := rustRound_mono_of_nonneg
      (le_trans (by positivity) hv1) hv2
    rwa [rustRound_natCast] at this
  generalize rustRound _ = r at hr
  omega

/-- Within a segment with non-decreasing speeds, `interpolate` is monotone
in the query temperature. -/
theorem interpolate_mono {Ta Tb t1 t2 : ℚ} {sa sb : ℕ} (hT : Ta < Tb)
    (hs : sa ≤ sb) (h1 : Ta ≤ t1) (h12 : t1 ≤ t2) (h2 : t2 ≤ Tb) :
    interpolate Ta sa Tb sb t1 ≤ interpolate Ta sa Tb sb t2 := by
  rw [interpolate_def, interpolate_def]
  have hpos : (0 : ℚ) < Tb - Ta := by linarith
  have hsba : (0 : ℚ) ≤ (sb : ℚ) - (sa : ℚ) := by
    have : (sa : ℚ) ≤ (sb : ℚ) := by exact_mod_cast hs
    linarith
  have hv12 : (sa : ℚ) + (t1 - Ta) / (Tb - Ta) * ((sb : ℚ) - (sa : ℚ)) ≤
      (sa : ℚ) + (t2 - Ta) / (Tb - Ta) * ((sb : ℚ) - (sa : ℚ)) := by
    have : (t1 - Ta) / (Tb - Ta) ≤ (t2 - Ta) / (Tb - Ta) :=
      (div_le_div_iff_of_pos_right hpos).mpr (by linarith)
    nlinarith
  obtain ⟨hv1, _⟩ := interp_value_bounds hT hs h1 (le_trans h12 h2)
  have hr := rustRound_mono_of_nonneg (le_trans (by positivity) hv1) hv12
  generalize rustRound _ = r1 at hr ⊢
  generalize rustRound _ = r2 at hr ⊢
  omega

/-- At the right endpoint of a segment, `interpolate` returns exactly the
right endpoint's speed (when it is ≤ 100). -/
theorem interpolate_at_right {Ta Tb : ℚ} {sa sb : ℕ} (hT : Ta < Tb)
    (hsb : sb ≤ 100) :
    interpolate Ta sa Tb sb Tb = sb := by
  rw [interpolate_def]
  have hne : Tb - Ta ≠ 0 := by
    intro h
    have : Ta = Tb := by linarith
    exact absurd this (ne_of_lt hT)
  have hv : (sa : ℚ) + (Tb - Ta) / (Tb - Ta) * ((sb : ℚ) - (sa : ℚ)) = (sb : ℚ) := by
    rw [div_self hne]
    ring
  rw [hv, rustRound_natCast]
  omega

/-! ### Scan lemmas for the monotonicity claim (C5) -/

/-- Unfolding equation for one step of the bracketing-pair scan. -/
theorem scanSegments_cons (p1 p2 : CurvePoint) (rest : List CurvePoint) (t : ℚ) :
    scanSegments (p1 :: p2 :: rest) t =
      if p1.temperature_celsius ≤ t ∧ t ≤ p2.temperature_celsius then
        interpolate p1.temperature_celsius p1.fan_speed_percent
          p2.temperature_celsius p2.fan_speed_percent t
      else
        scanSegments (p2 :: rest) t := by
  rw [scanSegments]

/-- Unfolding equation for `evalSorted` on a nonempty list. -/
theorem evalSorted_cons (q : CurvePoint) (qs : List CurvePoint) (t : ℚ) :
    evalSorted (q :: qs) t =
      if t ≤ q.temperature_celsius then
        q.fan_speed_percent
      else if (qs.getLastD q).temperature_celsius ≤ t then
        (qs.getLastD q).fan_speed_percent
      else
        scanSegments (q :: qs) t := by
  rw [evalSorted]

/-- For a strictly sorted list with non-decreasing speeds bounded by 100,
the scan result is at least the head's speed, for queries strictly inside
the temperature range. -/
theorem scanSegments_ge_head (p1 : CurvePoint) (rest : List CurvePoint) (t : ℚ)
    (HS : (p1 :: rest).Pairwise tempLt)
    (HSP : (p1 :: rest).Pairwise speedLe)
    (HB : ∀ p ∈ p1 :: rest, p.fan_speed_percent ≤ 100)
    (ht1 : p1.temperature_celsius < t)
    (ht2 : t < (rest.getLastD p1).temperature_celsius) :
    p1.fan_speed_percent ≤ scanSegments (p1 :: rest) t := by
  induction rest generalizing p1 with
  | nil =>
    exfalso
    simp only [List.getLastD] at ht2
    linarith
  | cons p2 rest' ih =>
    rw [List.getLastD_cons] at ht2
    obtain ⟨hShead, hStail⟩ := List.pairwise_cons.mp HS
    obtain ⟨hPhead, hPtail⟩ := List.pairwise_cons.mp HSP
    have hT12 : p1.temperature_celsius < p2.temperature_celsius :=
      hShead p2 (by simp)
    have hs12 : p1.fan_speed_percent ≤ p2.fan_speed_percent :=
      hPhead p2 (by simp)
    rw [scanSegments_cons]
    by_cases hbr : p1.temperature_celsius ≤ t ∧ t ≤ p2.temperature_celsius
    · rw [if_pos hbr]
      exact interpolate_ge_left hT12 hs12 (HB p1 (by simp)) hbr.1 hbr.2
    · rw [if_neg hbr]
      have ht1' : p2.temperature_celsius < t := by
        by_contra hcon
        exact hbr ⟨le_of_lt ht1, not_lt.mp hcon⟩
      exact le_trans hs12
        (ih p2 hStail hPtail (fun p hp => HB p (List.mem_cons_of_mem _ hp)) ht1' ht2)

/-- For a strictly sorted list with non-decreasing speeds bounded by 100,
the scan result is at most the last element's speed, for queries strictly
inside the temperature range. -/
theorem scanSegments_le_last (p1 : CurvePoint) (rest : List CurvePoint) (t : ℚ)
    (HS : (p1 :: rest).Pairwise tempLt)
    (HSP : (p1 :: rest).Pairwise speedLe)
    (HB : ∀ p ∈ p1 :: rest, p.fan_speed_percent ≤ 100)
    (ht1 : p1.temperature_celsius < t)
    (ht2 : t < (rest.getLastD p1).temperature_celsius) :
    scanSegments (p1 :: rest) t ≤ (rest.getLastD p1).fan_speed_percent := by
  induction rest generalizing p1 with
  | nil =>
    exfalso
    simp only [List.getLastD] at ht2
    linarith
  | cons p2 rest' ih =>
    rw [List.getLastD_cons] at ht2 ⊢
    obtain ⟨hShead, hStail⟩ := List.pairwise_cons.mp HS
    obtain ⟨hPhead, hPtail⟩ := List.pairwise_cons.mp HSP
    have hT12 : p1.temperature_celsius < p2.temperature_celsius :=
      hShead p2 (by simp)
    have hs12 : p1.fan_speed_percent ≤ p2.fan_speed_percent :=
      hPhead p2 (by simp)
    have hlast : p2.fan_speed_percent ≤ (rest'.getLastD p2).fan_speed_percent :=
      rel_getLastD_of_pairwise (R := speedLe) (fun _ => le_refl _) p2 rest'
        hPtail p2 (by simp)
    rw [scanSegments_cons]
    by_cases hbr : p1.temperature_celsius ≤ t ∧ t ≤ p2.temperature_celsius
    · rw [if_pos hbr]
      exact le_trans (interpolate_le_right hT12 hs12 hbr.1 hbr.2) hlast
    · rw [if_neg hbr]
      have ht1' : p2.temperature_celsius < t := by
        by_contra hcon
        exact hbr ⟨le_of_lt ht1, not_lt.mp hcon⟩
      exact ih p2 hStail hPtail (fun p hp => HB p (List.mem_cons_of_mem _ hp)) ht1' ht2

/-- For a strictly sorted list with non-decreasing speeds bounded by 100,
the scan is monotone in the query, for queries strictly inside the
temperature range. -/
theorem scanSegments_mono (p1 : CurvePoint) (rest : List CurvePoint) (t1 t2 : ℚ)
    (HS : (p1 :: rest).Pairwise tempLt)
    (HSP : (p1 :: rest).Pairwise speedLe)
    (HB : ∀ p ∈ p1 :: rest, p.fan_speed_percent ≤ 100)
    (h12 : t1 ≤ t2)
    (ht1 : p1.temperature_celsius < t1)
    (ht2 : t2 < (rest.getLastD p1).temperature_celsius) :
    scanSegments (p1 :: rest) t1 ≤ scanSegments (p1 :: rest) t2 := by
  induction rest generalizing p1 with
  | nil =>
    exfalso
    simp only [List.getLastD] at ht2
    linarith
  | cons p2 rest' ih =>
    rw [List.getLastD_cons] at ht2
    obtain ⟨hShead, hStail⟩ := List.pairwise_cons.mp HS
    obtain ⟨hPhead, hPtail⟩ := List.pairwise_cons.mp HSP
    have hT12 : p1.temperature_celsius < p2.temperature_celsius :=
      hShead p2 (by simp)
    have hs12 : p1.fan_speed_percent ≤ p2.fan_speed_percent :=
      hPhead p2 (by simp)
    have hHB' : ∀ p ∈ p2 :: rest', p.fan_speed_percent ≤ 100 :=
      fun p hp => HB p (List.mem_cons_of_mem _ hp)
    rw [scanSegments_cons p1 p2 rest' t1, scanSegments_cons p1 p2 rest' t2]
    by_cases hbr1 : p1.temperature_celsius ≤ t1 ∧ t1 ≤ p2.temperature_celsius
    · rw [if_pos hbr1]
      by_cases hbr2 : p1.temperature_celsius ≤ t2 ∧ t2 ≤ p2.temperature_celsius
      · rw [if_pos hbr2]
        exact interpolate_mono hT12 hs12 hbr1.1 h12 hbr2.2
      · rw [if_neg hbr2]
        have ht1' : p2.temperature_celsius < t2 := by
          by_contra hcon
          exact hbr2 ⟨le_trans (le_of_lt ht1) h12, not_lt.mp hcon⟩
        exact le_trans (interpolate_le_right hT12 hs12 hbr1.1 hbr1.2)
          (scanSegments_ge_head p2 rest' t2 hStail hPtail hHB' ht1' ht2)
    · rw [if_neg hbr1]
      have ht1' : p2.temperature_celsius < t1 := by
        by_contra hcon
        exact hbr1 ⟨le_of_lt ht1, not_lt.mp hcon⟩
      have hbr2 : ¬(p1.temperature_celsius ≤ t2 ∧ t2 ≤ p2.temperature_celsius) := by
        rintro ⟨-, hle⟩
        exact absurd (lt_of_lt_of_le ht1' h12) (not_lt.mpr hle)
      rw [if_neg hbr2]
      exact ih p2 hStail hPtail hHB' ht1' ht2

/-- For a strictly sorted list with non-decreasing speeds bounded by 100,
`evalSorted` is monotone in the query temperature. -/
theorem evalSorted_mono (q : CurvePoint) (qs : List CurvePoint)
    (HS : (q :: qs).Pairwise tempLt) (HSP : (q :: qs).Pairwise speedLe)
    (HB : ∀ p ∈ q :: qs, p.fan_speed_percent ≤ 100)
    {t1 t2 : ℚ} (h12 : t1 ≤ t2) :
    evalSorted (q :: qs) t1 ≤ evalSorted (q :: qs) t2 := by
  have hlast_speed : q.fan_speed_percent ≤ (qs.getLastD q).fan_speed_percent :=
    rel_getLastD_of_pairwise (R := speedLe) (fun _ => le_refl _) q qs HSP q (by simp)
  rw [evalSorted_cons q qs t1, evalSorted_cons q qs t2]
  by_cases b1 : t1 ≤ q.temperature_celsius
  · rw [if_pos b1]
    by_cases c1 : t2 ≤ q.temperature_celsius
    · rw [if_pos c1]
    · rw [if_neg c1]
      by_cases c2 : (qs.getLastD q).temperature_celsius ≤ t2
      · rw [if_pos c2]
        exact hlast_speed
      · rw [if_neg c2]
        exact scanSegments_ge_head q qs t2 HS HSP HB (not_le.mp c1) (not_le.mp c2)
  · rw [if_neg b1]
    have c1 : ¬ t2 ≤ q.temperature_celsius := fun h => b1 (le_trans h12 h)
    rw [if_neg c1]
    by_cases b2 : (qs.getLastD q).temperature_celsius ≤ t1
    · rw [if_pos b2, if_pos (le_trans b2 h12)]
    · rw [if_neg b2]
      by_cases c2 : (qs.getLastD q).temperature_celsius ≤ t2
      · rw [if_pos c2]
        exact scanSegments_le_last q qs t1 HS HSP HB (not_le.mp b1) (not_le.mp b2)
      · rw [if_neg c2]
        exact scanSegments_mono q qs t1 t2 HS HSP HB h12 (not_le.mp b1) (not_le.mp c2)

/-! ### Knot lemmas for the monotonicity claim (C5) -/

/-- In a strictly sorted list, two members with the same temperature are
the same point. -/
theorem eq_of_temp_eq {l : List CurvePoint} (HS : l.Pairwise tempLt) :
    ∀ x ∈ l, ∀ y ∈ l,
      x.temperature_celsius = y.temperature_celsius → x = y := by
  induction l with
  | nil => simp
  | cons a as ih =>
    intro x hx y hy hxy
    obtain ⟨hhead, htail⟩ := List.pairwise_cons.mp HS
    have hhead' : ∀ z ∈ as, a.temperature_celsius < z.temperature_celsius := hhead
    rcases List.mem_cons.mp hx with rfl | hx'
    · rcases List.mem_cons.mp hy with rfl | hy'
      · rfl
      · exact absurd hxy (ne_of_lt (hhead' y hy'))
    · rcases List.mem_cons.mp hy with rfl | hy'
      · exact absurd hxy.symm (ne_of_lt (hhead' x hx'))
      · exact ih htail x hx' y hy' hxy

/-- Evaluating the scan at a non-head knot temperature returns that knot's
speed. -/
theorem scanSegments_knot (p1 : CurvePoint) (rest : List CurvePoint)
    (x : CurvePoint) (HS : (p1 :: rest).Pairwise tempLt) (hx : x ∈ rest)
    (hx100 : x.fan_speed_percent ≤ 100) :
    scanSegments (p1 :: rest) x.temperature_celsius = x.fan_speed_percent := by
  induction rest generalizing p1 with
  | nil => cases hx
  | cons p2 rest' ih =>
    obtain ⟨hhead, htail⟩ := List.pairwise_cons.mp HS
    have hT12 : p1.temperature_celsius < p2.temperature_celsius :=
      hhead p2 (by simp)
    rcases List.mem_cons.mp hx with rfl | hx'
    · rw [scanSegments_cons, if_pos ⟨le_of_lt hT12, le_refl _⟩]
      exact interpolate_at_right hT12 hx100
    · have hT2x : p2.temperature_celsius < x.temperature_celsius :=
        (List.pairwise_cons.mp htail).1 x hx'
      rw [scanSegments_cons,
        if_neg (fun hbr => absurd hbr.2 (not_le.mpr hT2x))]
      exact ih p2 htail hx'

/-- Evaluating `evalSorted` at any knot temperature of a strictly sorted
list with speeds ≤ 100 returns that knot's speed. -/
theorem evalSorted_knot (q : CurvePoint) (qs : List CurvePoint) (x : CurvePoint)
    (HS : (q :: qs).Pairwise tempLt)
    (HB : ∀ p ∈ q :: qs, p.fan_speed_percent ≤ 100)
    (hx : x ∈ q :: qs) :
    evalSorted (q :: qs) x.temperature_celsius = x.fan_speed_percent := by
  rw [evalSorted_cons]
  rcases List.mem_cons.mp hx with rfl | hx'
  · rw [if_pos (le_refl _)]
  · have hqx : q.temperature_celsius < x.temperature_celsius :=
      (List.pairwise_cons.mp HS).1 x hx'
    rw [if_neg (not_le.mpr hqx)]
    by_cases hc : (qs.getLastD q).temperature_celsius ≤ x.temperature_celsius
    · rw [if_pos hc]
      have hxle : x.temperature_celsius ≤ (qs.getLastD q).temperature_celsius :=
        temp_le_getLastD q qs (HS.imp (fun h => le_of_lt h)) x hx
      have hxeq : x = qs.getLastD q :=
        eq_of_temp_eq HS x hx (qs.getLastD q) (List.getLastD_mem_cons qs q)
          (le_antisymm hxle hc)
      rw [hxeq]
    · rw [if_neg hc]
      exact scanSegments_knot q qs x HS hx' (HB x hx)

/-- C5: for a non-empty curve sorted strictly ascending by temperature
with all speeds in `[0, 100]` (the data model's invariant; the spec leaves
duplicate temperatures to configuration validation), the evaluated curve
`t ↦ calculate_fan_speed points t` is monotone non-decreasing in `t` if
and only if the points' speeds are monotone non-decreasing in temperature
order. -/
theorem c5_monotone_iff_speeds_monotone (points : List CurvePoint)
    (hne : points ≠ []) (HS : points.Pairwise tempLt)
    (HB : ∀ p ∈ points, p.fan_speed_percent ≤ 100) :
    (∀ t1 t2 : ℚ, t1 ≤ t2 →
        calculate_fan_speed points t1 ≤ calculate_fan_speed points t2) ↔
      points.Pairwise speedLe := by
  rcases points with _ | ⟨q, _ | ⟨q2, qs'⟩⟩
  · exact absurd rfl hne
  · constructor
    · intro _
      simp
    · intro _ t1 t2 _
      simp [calculate_fan_speed, List.headI]
  · have hpair : (q :: q2 :: qs').Pairwise (tempLE · ·) :=
      HS.imp (fun h => by
        simp only [tempLE, decide_eq_true_eq]
        exact le_of_lt h)
    have heval : ∀ t : ℚ,
        calculate_fan_speed (q :: q2 :: qs') t = evalSorted (q :: q2 :: qs') t := by
      intro t
      rw [calculate_fan_speed, if_neg (by simp), if_neg (by simp),
        List.mergeSort_of_sorted hpair]
    constructor
    · intro hm
      rw [List.pairwise_iff_get]
      intro i j hij
      have hti : (((q :: q2 :: qs').get i)).temperature_celsius <
          (((q :: q2 :: qs').get j)).temperature_celsius :=
        List.pairwise_iff_get.mp HS i j hij
      have hmono := hm _ _ (le_of_lt hti)
      rw [heval, heval,
        evalSorted_knot q (q2 :: qs') _ HS HB (List.get_mem _ _ _),
        evalSorted_knot q (q2 :: qs') _ HS HB (List.get_mem _ _ _)] at hmono
      exact hmono
    · intro hsp t1 t2 h12
      rw [heval, heval]
      exact evalSorted_mono q (q2 :: qs') HS hsp HB h12

/-- C5 witness: the example curve is strictly sorted with speeds in range,
and the equivalence instantiates there: its evaluation is monotone because
its speeds are. -/
theorem c5_witness :
    calculate_fan_speed exampleCurve 40 ≤ calculate_fan_speed exampleCurve 60 :=
  (c5_monotone_iff_speeds_monotone exampleCurve (by decide)
    (by with_unfolding_all decide) (by decide)).mpr (by decide) 40 60 (by norm_num)

end UniSync
